import Mathlib

/-!
Shallow embedding of `ESP32_Codes/scripts/load_env.py`, a PlatformIO
build-time configuration helper.  The script parses a `.env` file into a
dictionary, then registers compile-time defines (CPPDEFINES) for WiFi
credential slots, legacy WiFi aliases and a set of fixed MQTT/backend/device
keys.  Every definition below is translated from the Python source; the one
definition translated from the specification text is `specStripQuotes`,
clearly marked as such.
-/

namespace LoadEnv

/-- The single-quote character, written by code point to keep the file
free of quote-escape noise. -/
def squote : Char := Char.ofNat 39

/-- The double-quote character. -/
def dquote : Char := Char.ofNat 34

/-- The Python `str` whitespace set (code points the no-argument
`str.strip()` removes). -/
def pyIsSpace (c : Char) : Bool :=
  [9, 10, 11, 12, 13, 28, 29, 30, 31, 32, 133, 160, 5760,
   8192, 8193, 8194, 8195, 8196, 8197, 8198, 8199, 8200, 8201, 8202,
   8232, 8233, 8239, 8287, 12288].contains c.toNat

/-- Python `str.strip()` on a list of characters: remove every leading and
trailing whitespace character. -/
def pyStripL (l : List Char) : List Char :=
  ((l.dropWhile pyIsSpace).reverse.dropWhile pyIsSpace).reverse

/-- Python `s.strip()` with no arguments. -/
def pyStrip (s : String) : String :=
  String.mk (pyStripL s.data)

/-- Python `str.strip(c)` on a list of characters: remove every leading and
trailing occurrence of the character `c`. -/
def stripCharL (c : Char) (l : List Char) : List Char :=
  ((l.dropWhile (· == c)).reverse.dropWhile (· == c)).reverse

/-- Python `s.strip(c)` for a one-character strip set. -/
def stripChar (c : Char) (s : String) : String :=
  String.mk (stripCharL c s.data)

/-- Processing of a raw value in `_parse_env_file`:
`v.strip().strip(DQUOTE).strip(SQUOTE)`. -/
def procValue (v : String) : String :=
  stripChar squote (stripChar dquote (pyStrip v))

/-- Modelled from the spec (section 4.1, for comparison with `procValue`):
trim, then strip a single layer of matching double-quote or single-quote
wrapping if present. -/
def specStripQuotes (v : String) : String :=
  let t := (pyStrip v).data
  if 2 ≤ t.length ∧
      ((t.head? = some dquote ∧ t.getLast? = some dquote) ∨
       (t.head? = some squote ∧ t.getLast? = some squote)) then
    String.mk ((t.drop 1).dropLast)
  else
    String.mk t

/-- Python `line.split(c, 1)`: `none` when `c` does not occur in the line
(`c not in line`), otherwise the parts before and after the first `c`. -/
def splitAtFirst (c : Char) : List Char → Option (List Char × List Char)
  | [] => none
  | x :: xs =>
    if x == c then
      some ([], xs)
    else
      match splitAtFirst c xs with
      | none => none
      | some (a, b) => some (x :: a, b)

/-- The parsed environment table.  Python builds a `dict`; we record the
assignments in order and let lookup take the latest one, which gives the
same `dict.get` behaviour (last assignment wins). -/
abbrev EnvTable := List (String × String)

/-- Python `vars.get(key, default)`: the value of the latest assignment to
`key`, or `default` when the key was never assigned. -/
def getVar (t : EnvTable) (key default : String) : String :=
  match t.reverse.find? (fun e => e.1 == key) with
  | some e => e.2
  | none => default

/-- Whether a key is present in the table (`key in vars`). -/
def hasKey (t : EnvTable) (key : String) : Bool :=
  (t.reverse.find? (fun e => e.1 == key)).isSome

/-- One loop iteration of `_parse_env_file`: strip the raw line, skip it if
empty, a comment, or without an equals sign, otherwise record
`(k.strip(), v.strip().strip(DQUOTE).strip(SQUOTE))`. -/
def processLine (table : EnvTable) (raw : String) : EnvTable :=
  let line := pyStrip raw
  if line.data = [] then table
  else if line.data.head? = some '#' then table
  else
    match splitAtFirst '=' line.data with
    | none => table
    | some (ks, vs) =>
      table ++ [(pyStrip (String.mk ks), procValue (String.mk vs))]

/-- `_parse_env_file(path)`: `none` models a non-existent file (the function
returns the empty dict), `some lines` the file split into lines. -/
def parseEnvFile : Option (List String) → EnvTable
  | none => []
  | some lines => lines.foldl processLine []

/-- One compile-time definition appended to `CPPDEFINES`: a key and the
textual value registered for it. -/
structure Define where
  key : String
  val : String
deriving Repr, DecidableEq

/-- The `f-string` wrapping in `define_str`: a backslash-escaped double
quote on each side of the value. -/
def quoteWrap (val : String) : String :=
  "\\\"" ++ val ++ "\\\""

/-- `define_str(key, default)`: look the key up in the table and register
the value wrapped in escaped double quotes. -/
def defineStr (vars : EnvTable) (key default : String) : Define :=
  { key := key, val := quoteWrap (getVar vars key default) }

/-- `define_int(key, default)`: look the key up in the table and register
the value bare. -/
def defineInt (vars : EnvTable) (key default : String) : Define :=
  { key := key, val := getVar vars key default }

/-- Accumulator for Python `int(s)` digit parsing; accepts a single
underscore between digits as Python does. -/
def pyDigitsAux : Nat → List Char → Option Nat
  | acc, [] => some acc
  | acc, '_' :: c :: cs =>
    if c.isDigit then pyDigitsAux (acc * 10 + (c.toNat - 48)) cs else none
  | acc, c :: cs =>
    if c.isDigit then pyDigitsAux (acc * 10 + (c.toNat - 48)) cs else none

/-- Python `int(s)` on a decimal string: strip whitespace, optional sign,
then digits; `none` models the `ValueError` raised on anything else. -/
def pyInt (s : String) : Option Int :=
  match (pyStrip s).data with
  | '+' :: c :: cs =>
    if c.isDigit then (pyDigitsAux (c.toNat - 48) cs).map Int.ofNat else none
  | '-' :: c :: cs =>
    if c.isDigit then (pyDigitsAux (c.toNat - 48) cs).map (fun n => -(Int.ofNat n : Int))
    else none
  | c :: cs =>
    if c.isDigit then (pyDigitsAux (c.toNat - 48) cs).map Int.ofNat else none
  | [] => none

/-- Python `range(1, n + 1)` for a possibly negative `n`: the slots
`1, 2, ..., n`, empty when `n ≤ 0`. -/
def slotRange (n : Int) : List Nat :=
  if n ≤ 0 then [] else (List.range n.toNat).map (· + 1)

/-- The body of the WiFi slot loop: for each slot index append the
`WIFI_SSID{i}` and `WIFI_PASS{i}` string defines (default empty). -/
def slotDefinesAux (vars : EnvTable) : List Nat → List Define
  | [] => []
  | i :: is =>
    defineStr vars ("WIFI_SSID" ++ Nat.repr i) "" ::
      defineStr vars ("WIFI_PASS" ++ Nat.repr i) "" ::
        slotDefinesAux vars is

/-- All defines appended by the WiFi slot loop for `WIFI_SLOTS_MAX = n`. -/
def slotDefines (vars : EnvTable) (n : Int) : List Define :=
  slotDefinesAux vars (slotRange n)

/-- The backward-compatibility block: `WIFI_SSID`/`WIFI_PASS` defines whose
default is the slot-1 value when the legacy value is falsy (empty). -/
def legacyDefines (vars : EnvTable) : List Define :=
  let ssidLegacy := getVar vars "WIFI_SSID" ""
  let passLegacy := getVar vars "WIFI_PASS" ""
  let ssid1 := getVar vars "WIFI_SSID1" ""
  let pass1 := getVar vars "WIFI_PASS1" ""
  [defineStr vars "WIFI_SSID" (if ssidLegacy = "" then ssid1 else ssidLegacy),
   defineStr vars "WIFI_PASS" (if passLegacy = "" then pass1 else passLegacy)]

/-- The fixed MQTT/backend/device defines with their hardcoded defaults. -/
def fixedDefines (vars : EnvTable) : List Define :=
  [defineStr vars "MQTT_HOST_ONLINE" "",
   defineStr vars "MQTT_HOST_OFFLINE" "192.168.31.108",
   defineInt vars "MQTT_PORT" "1883",
   defineStr vars "BACKEND_BASE" "",
   defineStr vars "BACKEND_HOST" "192.168.31.108",
   defineInt vars "BACKEND_PORT" "5000",
   defineStr vars "DEVICE_ID" "esp32_001"]

/-- The whole script after parsing: `int(vars.get("WIFI_SLOTS_MAX", "10"))`
followed by the slot loop, the legacy aliases and the fixed keys, in
append order.  `none` models the uncaught `ValueError` from `int`. -/
def runLoader (vars : EnvTable) : Option (List Define) :=
  match pyInt (getVar vars "WIFI_SLOTS_MAX" "10") with
  | none => none
  | some n => some (slotDefines vars n ++ legacyDefines vars ++ fixedDefines vars)

/-- The value of the last define registered for `key`, mirroring the
last-definition-wins resolution of duplicate CPPDEFINES entries. -/
def lastVal (ds : List Define) (key : String) : Option String :=
  (ds.reverse.find? (fun d => d.key == key)).map (fun d => d.val)

/-! Helper lemmas about the embedded operations. -/

/-- Soundness of `splitAtFirst`: a successful split decomposes the line at
an occurrence of `c`, and the part before it contains no `c`, so the split
really happens at the first occurrence. -/
theorem splitAtFirst_sound (c : Char) :
    ∀ l a b : List Char, splitAtFirst c l = some (a, b) → l = a ++ c :: b ∧ c ∉ a := by
  intro l
  induction l with
  | nil => intro a b h; simp [splitAtFirst] at h
  | cons x xs ih =>
    intro a b h
    by_cases hx : (x == c) = true
    · simp [splitAtFirst, hx] at h
      obtain ⟨ha, hb⟩ := h
      subst ha; subst hb
      simp [eq_of_beq hx]
    · rw [splitAtFirst, if_neg hx] at h
      cases hsp : splitAtFirst c xs with
      | none => rw [hsp] at h; simp at h
      | some ab =>
        obtain ⟨a', b'⟩ := ab
        rw [hsp] at h
        simp at h
        obtain ⟨ha, hb⟩ := h
        subst ha; subst hb
        obtain ⟨hxs, hnotin⟩ := ih a' b' hsp
        have hxc : x ≠ c := fun hc => hx (by simp [hc])
        constructor
        · rw [List.cons_append, hxs]
        · intro hmem
          rcases List.mem_cons.mp hmem with hmc | hmc
          · exact hxc hmc.symm
          · exact hnotin hmc

/-- Looking a key up after recording a new assignment for it yields the new
value: the dict semantics of `data[k] = v`. -/
theorem getVar_append_last (t : EnvTable) (k v d : String) :
    getVar (t ++ [(k, v)]) k d = v := by
  simp [getVar, List.reverse_append, List.find?]

/-- `vars.get(key, default)` splits into the present and absent cases. -/
theorem getVar_hasKey (t : EnvTable) (k d : String) :
    getVar t k d = if hasKey t k then getVar t k "" else d := by
  unfold getVar hasKey
  cases h : t.reverse.find? (fun e => e.1 == k) <;> simp [h]

/-- Python `str.strip` decomposition, one side: the dropped part of the
list is a run of the stripped character and the remainder does not start
with it. -/
theorem dropWhile_char_decomp (c : Char) :
    ∀ l : List Char, ∃ i, l = List.replicate i c ++ l.dropWhile (· == c) ∧
      (l.dropWhile (· == c)).head? ≠ some c := by
  intro l
  induction l with
  | nil => exact ⟨0, rfl, by simp⟩
  | cons x xs ih =>
    by_cases hx : (x == c) = true
    · obtain ⟨i, hi, hh⟩ := ih
      have hxc : x = c := eq_of_beq hx
      subst hxc
      refine ⟨i + 1, ?_, ?_⟩
      · rw [List.dropWhile_cons, if_pos hx, List.replicate_succ, List.cons_append]
        exact congrArg _ hi
      · rw [List.dropWhile_cons, if_pos hx]
        exact hh
    · have hxc : x ≠ c := fun hc => hx (by simp [hc])
      refine ⟨0, ?_, ?_⟩
      · rw [List.dropWhile_cons, if_neg hx]; rfl
      · rw [List.dropWhile_cons, if_neg hx]
        simp [hxc]

/-- Full decomposition of Python `s.strip(c)`: the input is a run of `c`,
the stripped result, and another run of `c`, and the result neither starts
nor ends with `c` (so the maximal runs on both sides are removed, with no
matching requirement between the two sides). -/
theorem stripCharL_decomp (c : Char) (l : List Char) :
    ∃ i j, l = (List.replicate i c ++ stripCharL c l) ++ List.replicate j c ∧
      (stripCharL c l).head? ≠ some c ∧ (stripCharL c l).getLast? ≠ some c := by
  obtain ⟨i, hi, hihead⟩ := dropWhile_char_decomp c l
  obtain ⟨j, hj, hjhead⟩ := dropWhile_char_decomp c (l.dropWhile (· == c)).reverse
  have hr : stripCharL c l = ((l.dropWhile (· == c)).reverse.dropWhile (· == c)).reverse := rfl
  have hmr : l.dropWhile (· == c) =
      stripCharL c l ++ List.replicate j c := by
    have h2 := congrArg List.reverse hj
    rw [List.reverse_reverse, List.reverse_append, List.reverse_replicate] at h2
    rw [h2, hr]
  refine ⟨i, j, ?_, ?_, ?_⟩
  · rw [List.append_assoc, ← hmr]
    exact hi
  · cases hda : ((l.dropWhile (· == c)).reverse.dropWhile (· == c)) with
    | nil => rw [hr, hda]; simp
    | cons y ys =>
      have hne : stripCharL c l ≠ [] := by rw [hr, hda]; simp
      have hhead : (l.dropWhile (· == c)).head? = (stripCharL c l).head? := by
        rw [hmr]
        exact List.head?_append_of_ne_nil _ hne
      rw [← hhead]
      exact hihead
  · rw [hr, List.getLast?_reverse]
    exact hjhead

/-- Membership in the slot loop output: every listed index contributes its
SSID and PASS defines. -/
theorem mem_slotDefinesAux (vars : EnvTable) :
    ∀ (is : List Nat) (i : Nat), i ∈ is →
      Define.mk ("WIFI_SSID" ++ Nat.repr i)
          (quoteWrap (getVar vars ("WIFI_SSID" ++ Nat.repr i) "")) ∈ slotDefinesAux vars is ∧
      Define.mk ("WIFI_PASS" ++ Nat.repr i)
          (quoteWrap (getVar vars ("WIFI_PASS" ++ Nat.repr i) "")) ∈ slotDefinesAux vars is := by
  intro is
  induction is with
  | nil => intro i h; simp at h
  | cons x xs ih =>
    intro i h
    rcases List.mem_cons.mp h with h | h
    · subst h
      constructor
      · exact List.mem_cons_self ..
      · exact List.mem_cons_of_mem _ (List.mem_cons_self ..)
    · obtain ⟨h1, h2⟩ := ih i h
      exact ⟨List.mem_cons_of_mem _ (List.mem_cons_of_mem _ h1),
        List.mem_cons_of_mem _ (List.mem_cons_of_mem _ h2)⟩

/-- An index is listed by `slotRange n` exactly when it lies in Python
`range(1, n + 1)`. -/
theorem mem_slotRange (n : Int) (i : Nat) :
    i ∈ slotRange n ↔ 1 ≤ i ∧ (i : Int) ≤ n := by
  unfold slotRange
  by_cases hn : n ≤ 0
  · rw [if_pos hn]
    simp only [List.not_mem_nil, false_iff]
    intro ⟨h1, h2⟩
    omega
  · rw [if_neg hn]
    simp only [List.mem_map, List.mem_range]
    constructor
    · rintro ⟨a, ha, rfl⟩
      omega
    · rintro ⟨h1, h2⟩
      refine ⟨i - 1, ?_, ?_⟩ <;> omega

/-- The last define registered for the legacy WiFi keys: the fixed defines
that come later never use those keys, so the legacy block's values win,
whatever precedes it. -/
theorem lastVal_legacy (vars : EnvTable) (pre : List Define) :
    lastVal (pre ++ legacyDefines vars ++ fixedDefines vars) "WIFI_SSID" =
      some (quoteWrap (getVar vars "WIFI_SSID"
        (if getVar vars "WIFI_SSID" "" = "" then getVar vars "WIFI_SSID1" ""
         else getVar vars "WIFI_SSID" ""))) ∧
    lastVal (pre ++ legacyDefines vars ++ fixedDefines vars) "WIFI_PASS" =
      some (quoteWrap (getVar vars "WIFI_PASS"
        (if getVar vars "WIFI_PASS" "" = "" then getVar vars "WIFI_PASS1" ""
         else getVar vars "WIFI_PASS" ""))) := by
  constructor <;>
  · unfold lastVal
    rw [List.reverse_append, List.reverse_append, List.find?_append, List.find?_append]
    rfl

/-! Claim theorems. -/

/-- C1: parsing skips empty lines, comment lines (first non-whitespace
character a hash) and lines without an equals sign; every other line is
split at the first equals sign (the key part contains none) into a trimmed
key and a processed value, appended to the table; looking the key up after
recording the line yields that line's value, so a later line with the same
key overwrites an earlier one. -/
theorem C1_parse_lines (ls : List String) (raw d : String) :
    (((pyStrip raw).data = [] ∨ (pyStrip raw).data.head? = some '#' ∨
        splitAtFirst '=' (pyStrip raw).data = none) →
      parseEnvFile (some (ls ++ [raw])) = parseEnvFile (some ls)) ∧
    (∀ ks vs : List Char, (pyStrip raw).data.head? ≠ some '#' →
      splitAtFirst '=' (pyStrip raw).data = some (ks, vs) →
      '=' ∉ ks ∧
      parseEnvFile (some (ls ++ [raw])) =
        parseEnvFile (some ls) ++ [(pyStrip (String.mk ks), procValue (String.mk vs))] ∧
      getVar (parseEnvFile (some (ls ++ [raw]))) (pyStrip (String.mk ks)) d =
        procValue (String.mk vs)) := by
  have hfold : parseEnvFile (some (ls ++ [raw])) =
      processLine (parseEnvFile (some ls)) raw := by
    simp [parseEnvFile, List.foldl_append]
  constructor
  · intro h
    rw [hfold]
    unfold processLine
    rcases h with h | h | h
    · simp [h]
    · have hne : (pyStrip raw).data ≠ [] := by
        intro hx; rw [hx] at h; simp at h
      simp [hne, h]
    · by_cases hne : (pyStrip raw).data = []
      · simp [hne]
      · by_cases hh : (pyStrip raw).data.head? = some '#'
        · simp [hne, hh]
        · simp [hne, hh, h]
  · intro ks vs hh hsp
    have hne : (pyStrip raw).data ≠ [] := by
      intro hx; rw [hx] at hsp; simp [splitAtFirst] at hsp
    obtain ⟨-, hnotin⟩ := splitAtFirst_sound '=' (pyStrip raw).data ks vs hsp
    have hstep : processLine (parseEnvFile (some ls)) raw =
        parseEnvFile (some ls) ++ [(pyStrip (String.mk ks), procValue (String.mk vs))] := by
      unfold processLine
      simp [hne, hh, hsp]
    refine ⟨hnotin, hfold.trans hstep, ?_⟩
    rw [hfold, hstep]
    exact getVar_append_last ..

/-- C1 witness: two lines assigning the same key; lookup yields the later
value. -/
theorem C1_parse_lines_witness :
    getVar (parseEnvFile (some (["K=1"] ++ ["K=2"]))) "K" "" = "2" := by
  have h := (C1_parse_lines ["K=1"] "K=2" "").2 ("K".data) ("2".data)
    (by decide) (by decide)
  exact h.2.2

/-- C2 counterexample: the doubly double-quoted value loses both quote
layers under the code (Python strip removes every leading and trailing
quote character), while the spec sentence keeps the inner layer. -/
theorem C2_double_wrap_cex :
    procValue "\"\"a\"\"" = "a" ∧ specStripQuotes "\"\"a\"\"" = "\"a\"" ∧
      ("a" : String) ≠ "\"a\"" := by
  refine ⟨by decide, by decide, by decide⟩

/-- C2 amended: after trimming, the value loses every leading and trailing
double-quote character and then every leading and trailing single-quote
character, with no matching requirement; the result neither starts nor
ends with a single quote, and the intermediate stage neither starts nor
ends with a double quote. -/
theorem C2_value_quote_stripping (v : String) :
    ∃ i j k l : Nat, ∃ core : List Char,
      (procValue v).data = core ∧
      (pyStrip v).data =
        (List.replicate i dquote ++
          ((List.replicate k squote ++ core) ++ List.replicate l squote)) ++
        List.replicate j dquote ∧
      core.head? ≠ some squote ∧ core.getLast? ≠ some squote ∧
      ((List.replicate k squote ++ core) ++ List.replicate l squote).head? ≠ some dquote ∧
      ((List.replicate k squote ++ core) ++ List.replicate l squote).getLast? ≠ some dquote := by
  obtain ⟨i, j, h1, h2, h3⟩ := stripCharL_decomp dquote (pyStrip v).data
  obtain ⟨k, l, g1, g2, g3⟩ := stripCharL_decomp squote (stripCharL dquote (pyStrip v).data)
  refine ⟨i, j, k, l, stripCharL squote (stripCharL dquote (pyStrip v).data),
    rfl, ?_, g2, g3, ?_, ?_⟩
  · rw [← g1]
    exact h1
  · rw [← g1]
    exact h2
  · rw [← g1]
    exact h3

/-- C3 counterexample: a file whose WIFI_SLOTS_MAX value is non-numeric
makes the loader fail (the uncaught ValueError of Python int, modelled as
none), so the loader does not complete for every input file. -/
theorem C3_nonnumeric_slots_cex :
    runLoader (parseEnvFile (some ["WIFI_SLOTS_MAX=abc"])) = none := by decide

/-- C3 amended: WIFI_SLOTS_MAX is the one value the loader numerically
parses; the loader completes exactly when that value (default 10) parses
as an integer, and no other value can make it fail. -/
theorem C3_exception_behavior (vars : EnvTable) :
    (runLoader vars).isSome = (pyInt (getVar vars "WIFI_SLOTS_MAX" "10")).isSome := by
  unfold runLoader
  cases hp : pyInt (getVar vars "WIFI_SLOTS_MAX" "10") <;> simp [hp]

/-- C6: a missing file parses to the empty table, and the loader then
gives every fixed key its documented default (MQTT_PORT and BACKEND_PORT
as bare integer tokens, the rest as escaped-quoted strings). -/
theorem C6_missing_file_defaults :
    parseEnvFile none = [] ∧
    (runLoader (parseEnvFile none)).map (fun ds =>
        (lastVal ds "MQTT_HOST_ONLINE", lastVal ds "MQTT_HOST_OFFLINE",
         lastVal ds "MQTT_PORT", lastVal ds "BACKEND_BASE",
         lastVal ds "BACKEND_HOST", lastVal ds "BACKEND_PORT",
         lastVal ds "DEVICE_ID")) =
      some (some (quoteWrap ""), some (quoteWrap "192.168.31.108"),
        some "1883", some (quoteWrap ""), some (quoteWrap "192.168.31.108"),
        some "5000", some (quoteWrap "esp32_001")) := by
  refine ⟨rfl, rfl⟩

/-- C7: defineString registers the value wrapped in escaped double quotes
and defineInt registers it bare; the line MQTT_PORT=1883 produces the bare
token 1883. -/
theorem C7_define_typing :
    (∀ (vars : EnvTable) (key default : String),
        (defineStr vars key default).val =
          "\\\"" ++ getVar vars key default ++ "\\\"" ∧
        (defineInt vars key default).val = getVar vars key default) ∧
    (runLoader (parseEnvFile (some ["MQTT_PORT=1883"]))).map
        (fun ds => lastVal ds "MQTT_PORT") = some (some "1883") := by
  refine ⟨fun vars key default => ⟨rfl, rfl⟩, by decide⟩

/-- C4: the loader reads WIFI_SLOTS_MAX (default 10) and, for every i from
1 to WIFI_SLOTS_MAX inclusive, defines WIFI_SSIDi and WIFI_PASSi as string
defines with default empty string; with WIFI_SLOTS_MAX=3 and no other keys
set, exactly the slots 1..3 are defined, all as empty strings. -/
theorem C4_slot_definitions :
    (∀ (vars : EnvTable) (n : Int),
        pyInt (getVar vars "WIFI_SLOTS_MAX" "10") = some n →
        ∃ ds, runLoader vars = some ds ∧
          ∀ i : Nat, 1 ≤ i → (i : Int) ≤ n →
            Define.mk ("WIFI_SSID" ++ Nat.repr i)
                (quoteWrap (getVar vars ("WIFI_SSID" ++ Nat.repr i) "")) ∈ ds ∧
            Define.mk ("WIFI_PASS" ++ Nat.repr i)
                (quoteWrap (getVar vars ("WIFI_PASS" ++ Nat.repr i) "")) ∈ ds) ∧
    runLoader (parseEnvFile (some ["WIFI_SLOTS_MAX=3"])) = some
      [⟨"WIFI_SSID1", "\\\"\\\""⟩, ⟨"WIFI_PASS1", "\\\"\\\""⟩,
       ⟨"WIFI_SSID2", "\\\"\\\""⟩, ⟨"WIFI_PASS2", "\\\"\\\""⟩,
       ⟨"WIFI_SSID3", "\\\"\\\""⟩, ⟨"WIFI_PASS3", "\\\"\\\""⟩,
       ⟨"WIFI_SSID", "\\\"\\\""⟩, ⟨"WIFI_PASS", "\\\"\\\""⟩,
       ⟨"MQTT_HOST_ONLINE", "\\\"\\\""⟩,
       ⟨"MQTT_HOST_OFFLINE", "\\\"192.168.31.108\\\""⟩,
       ⟨"MQTT_PORT", "1883"⟩,
       ⟨"BACKEND_BASE", "\\\"\\\""⟩,
       ⟨"BACKEND_HOST", "\\\"192.168.31.108\\\""⟩,
       ⟨"BACKEND_PORT", "5000"⟩,
       ⟨"DEVICE_ID", "\\\"esp32_001\\\""⟩] := by
  constructor
  · intro vars n h
    refine ⟨slotDefines vars n ++ legacyDefines vars ++ fixedDefines vars, ?_, ?_⟩
    · unfold runLoader
      rw [h]
    · intro i h1 h2
      have hmem : i ∈ slotRange n := (mem_slotRange n i).mpr ⟨h1, h2⟩
      obtain ⟨m1, m2⟩ := mem_slotDefinesAux vars (slotRange n) i hmem
      exact ⟨List.mem_append_left _ (List.mem_append_left _ m1),
        List.mem_append_left _ (List.mem_append_left _ m2)⟩
  · rfl

/-- C4 witness: with WIFI_SLOTS_MAX=3 the slot-2 defines are present. -/
theorem C4_slot_definitions_witness :
    ∃ ds, runLoader (parseEnvFile (some ["WIFI_SLOTS_MAX=3"])) = some ds ∧
      Define.mk ("WIFI_SSID" ++ Nat.repr 2)
          (quoteWrap (getVar (parseEnvFile (some ["WIFI_SLOTS_MAX=3"]))
            ("WIFI_SSID" ++ Nat.repr 2) "")) ∈ ds ∧
      Define.mk ("WIFI_PASS" ++ Nat.repr 2)
          (quoteWrap (getVar (parseEnvFile (some ["WIFI_SLOTS_MAX=3"]))
            ("WIFI_PASS" ++ Nat.repr 2) "")) ∈ ds := by
  obtain ⟨ds, hds, hmem⟩ :=
    C4_slot_definitions.1 (parseEnvFile (some ["WIFI_SLOTS_MAX=3"])) 3 (by decide)
  obtain ⟨m1, m2⟩ := hmem 2 (by decide) (by decide)
  exact ⟨ds, hds, m1, m2⟩

/-- C5 counterexample: with the line WIFI_SSID= (explicitly empty) and
WIFI_SSID1=MyNet, the EnvTable value of WIFI_SSID is empty, so the claim
demands the legacy define to be MyNet; the code re-looks the key up inside
define_str and registers the empty string instead. -/
theorem C5_explicit_empty_cex :
    (runLoader (parseEnvFile (some ["WIFI_SSID=", "WIFI_SSID1=MyNet"]))).map
        (fun ds => lastVal ds "WIFI_SSID") = some (some (quoteWrap "")) ∧
    quoteWrap "" ≠ quoteWrap "MyNet" := by
  refine ⟨rfl, by decide⟩

/-- C5 amended: the legacy WIFI_SSID define equals the EnvTable value of
WIFI_SSID whenever that key is present in the table (even when its value
is empty), and equals the EnvTable value of WIFI_SSID1 when the key is
absent; analogously for WIFI_PASS. -/
theorem C5_legacy_alias (vars : EnvTable) (ds : List Define)
    (h : runLoader vars = some ds) :
    lastVal ds "WIFI_SSID" =
      some (quoteWrap (if hasKey vars "WIFI_SSID" then getVar vars "WIFI_SSID" ""
        else getVar vars "WIFI_SSID1" "")) ∧
    lastVal ds "WIFI_PASS" =
      some (quoteWrap (if hasKey vars "WIFI_PASS" then getVar vars "WIFI_PASS" ""
        else getVar vars "WIFI_PASS1" "")) := by
  unfold runLoader at h
  cases hp : pyInt (getVar vars "WIFI_SLOTS_MAX" "10") with
  | none => rw [hp] at h; simp at h
  | some n =>
    rw [hp] at h
    simp only [Option.some.injEq] at h
    subst h
    obtain ⟨hs, hpw⟩ := lastVal_legacy vars (slotDefines vars n)
    constructor
    · rw [hs]
      by_cases hk : hasKey vars "WIFI_SSID"
      · rw [if_pos hk, getVar_hasKey vars "WIFI_SSID", if_pos hk]
      · have hempty : getVar vars "WIFI_SSID" "" = "" := by
          rw [getVar_hasKey vars "WIFI_SSID", if_neg hk]
        rw [if_neg hk, hempty, if_pos rfl, getVar_hasKey vars "WIFI_SSID", if_neg hk]
    · rw [hpw]
      by_cases hk : hasKey vars "WIFI_PASS"
      · rw [if_pos hk, getVar_hasKey vars "WIFI_PASS", if_pos hk]
      · have hempty : getVar vars "WIFI_PASS" "" = "" := by
          rw [getVar_hasKey vars "WIFI_PASS", if_neg hk]
        rw [if_neg hk, hempty, if_pos rfl, getVar_hasKey vars "WIFI_PASS", if_neg hk]

/-- C5 witness: the two positive examples of the claim, which the amended
statement keeps: slot-1 fallback when WIFI_SSID is absent, and the
explicit value winning over the slot value. -/
theorem C5_legacy_alias_witness :
    lastVal ((runLoader (parseEnvFile (some ["WIFI_SSID1=MyNet"]))).getD []) "WIFI_SSID" =
      some (quoteWrap "MyNet") ∧
    lastVal ((runLoader (parseEnvFile
        (some ["WIFI_SSID=Explicit", "WIFI_SSID1=Slot1Net"]))).getD []) "WIFI_SSID" =
      some (quoteWrap "Explicit") := by
  constructor
  · have h : runLoader (parseEnvFile (some ["WIFI_SSID1=MyNet"])) =
        some ((runLoader (parseEnvFile (some ["WIFI_SSID1=MyNet"]))).getD []) := rfl
    rw [(C5_legacy_alias _ _ h).1]
    rfl
  · have h : runLoader (parseEnvFile (some ["WIFI_SSID=Explicit", "WIFI_SSID1=Slot1Net"])) =
        some ((runLoader (parseEnvFile
          (some ["WIFI_SSID=Explicit", "WIFI_SSID1=Slot1Net"]))).getD []) := rfl
    rw [(C5_legacy_alias _ _ h).1]
    rfl

/-- C8: a hash inside a value is preserved: any line that does not begin
(after stripping) with a hash and contains an equals sign is recorded with
its full processed value, and the concrete line with a hash inside a
quoted value keeps the hash and the text after it. -/
theorem C8_hash_in_value :
    (∀ (table : EnvTable) (raw : String) (ks vs : List Char),
        (pyStrip raw).data.head? ≠ some '#' →
        splitAtFirst '=' (pyStrip raw).data = some (ks, vs) →
        processLine table raw =
          table ++ [(pyStrip (String.mk ks), procValue (String.mk vs))]) ∧
    getVar (parseEnvFile (some ["KEY=\"a#b\""])) "KEY" "" = "a#b" ∧
    '#' ∈ (getVar (parseEnvFile (some ["KEY=\"a#b\""])) "KEY" "").data := by
  refine ⟨?_, by decide, by decide⟩
  intro table raw ks vs hh hsp
  have hne : (pyStrip raw).data ≠ [] := by
    intro hx; rw [hx] at hsp; simp [splitAtFirst] at hsp
  unfold processLine
  simp [hne, hh, hsp]

/-- C8 witness: the general part applied to the concrete line with a hash
inside a double-quoted value. -/
theorem C8_hash_in_value_witness :
    processLine [] "KEY=\"a#b\"" = [("KEY", "a#b")] := by
  have h := C8_hash_in_value.1 [] "KEY=\"a#b\"" ("KEY".data) ("\"a#b\"".data)
    (by decide) (by decide)
  exact h.trans (by decide)

/-- C9: on every input on which the loader completes, every requested key
receives a define: each WiFi slot key in range, the legacy WIFI_SSID and
WIFI_PASS pair, and each MQTT, backend and device fixed key. -/
theorem C9_every_key_defined (vars : EnvTable) (n : Int)
    (h : pyInt (getVar vars "WIFI_SLOTS_MAX" "10") = some n) :
    ∃ ds, runLoader vars = some ds ∧
      (∀ i : Nat, 1 ≤ i → (i : Int) ≤ n →
        (∃ d ∈ ds, d.key = "WIFI_SSID" ++ Nat.repr i) ∧
        (∃ d ∈ ds, d.key = "WIFI_PASS" ++ Nat.repr i)) ∧
      ∀ key ∈ ["WIFI_SSID", "WIFI_PASS", "MQTT_HOST_ONLINE", "MQTT_HOST_OFFLINE",
          "MQTT_PORT", "BACKEND_BASE", "BACKEND_HOST", "BACKEND_PORT", "DEVICE_ID"],
        ∃ d ∈ ds, d.key = key := by
  refine ⟨slotDefines vars n ++ legacyDefines vars ++ fixedDefines vars, ?_, ?_, ?_⟩
  · unfold runLoader
    rw [h]
  · intro i h1 h2
    have hmem := mem_slotDefinesAux vars (slotRange n) i ((mem_slotRange n i).mpr ⟨h1, h2⟩)
    exact ⟨⟨_, List.mem_append_left _ (List.mem_append_left _ hmem.1), rfl⟩,
      ⟨_, List.mem_append_left _ (List.mem_append_left _ hmem.2), rfl⟩⟩
  · intro key hkey
    have hcov : key ∈ (legacyDefines vars ++ fixedDefines vars).map (fun d => d.key) := by
      have hmap : (legacyDefines vars ++ fixedDefines vars).map (fun d => d.key) =
          ["WIFI_SSID", "WIFI_PASS", "MQTT_HOST_ONLINE", "MQTT_HOST_OFFLINE",
           "MQTT_PORT", "BACKEND_BASE", "BACKEND_HOST", "BACKEND_PORT", "DEVICE_ID"] := rfl
      rw [hmap]
      exact hkey
    obtain ⟨d, hd, hdk⟩ := List.mem_map.mp hcov
    refine ⟨d, ?_, hdk⟩
    rcases List.mem_append.mp hd with hd | hd
    · exact List.mem_append_left _ (List.mem_append_right _ hd)
    · exact List.mem_append_right _ hd

/-- C9 witness: with the empty table (WIFI_SLOTS_MAX defaulting to 10) the
slot-10 keys and the DEVICE_ID key all receive defines. -/
theorem C9_every_key_defined_witness :
    ∃ ds, runLoader [] = some ds ∧
      (∃ d ∈ ds, d.key = "WIFI_SSID" ++ Nat.repr 10) ∧
      (∃ d ∈ ds, d.key = "DEVICE_ID") := by
  obtain ⟨ds, hds, hslots, hfixed⟩ := C9_every_key_defined [] 10 (by decide)
  exact ⟨ds, hds, (hslots 10 (by decide) (by decide)).1,
    hfixed "DEVICE_ID" (by decide)⟩

/-- C10: when WIFI_SLOTS_MAX parses to zero or a negative integer, the
slot loop emits no defines, the output is exactly the legacy and fixed
defines, and with WIFI_SSID absent from the table the legacy define still
falls back to the EnvTable value of WIFI_SSID1 although no slot define
carries it. -/
theorem C10_zero_slots (vars : EnvTable) (n : Int)
    (h : pyInt (getVar vars "WIFI_SLOTS_MAX" "10") = some n) (hn : n ≤ 0) :
    runLoader vars = some (legacyDefines vars ++ fixedDefines vars) ∧
    slotDefines vars n = [] ∧
    (hasKey vars "WIFI_SSID" = false →
      lastVal (legacyDefines vars ++ fixedDefines vars) "WIFI_SSID" =
        some (quoteWrap (getVar vars "WIFI_SSID1" ""))) := by
  have hsl : slotDefines vars n = [] := by
    unfold slotDefines slotRange
    rw [if_pos hn]
    rfl
  refine ⟨?_, hsl, ?_⟩
  · unfold runLoader
    rw [h]
    show some (slotDefines vars n ++ legacyDefines vars ++ fixedDefines vars) =
      some (legacyDefines vars ++ fixedDefines vars)
    rw [hsl]
    rfl
  · intro hk
    have hleg := (lastVal_legacy vars []).1
    rw [List.nil_append] at hleg
    rw [hleg]
    have hempty : getVar vars "WIFI_SSID" "" = "" := by
      rw [getVar_hasKey vars "WIFI_SSID", hk]
      simp
    rw [hempty, if_pos rfl, getVar_hasKey vars "WIFI_SSID", hk]
    simp

/-- C10 witness: WIFI_SLOTS_MAX=0 with a slot-1 SSID set and no legacy
key; the loader emits only legacy and fixed defines and the legacy value
is the slot-1 SSID. -/
theorem C10_zero_slots_witness :
    runLoader (parseEnvFile (some ["WIFI_SLOTS_MAX=0", "WIFI_SSID1=MyNet"])) =
      some (legacyDefines (parseEnvFile (some ["WIFI_SLOTS_MAX=0", "WIFI_SSID1=MyNet"])) ++
        fixedDefines (parseEnvFile (some ["WIFI_SLOTS_MAX=0", "WIFI_SSID1=MyNet"]))) ∧
    lastVal (legacyDefines (parseEnvFile (some ["WIFI_SLOTS_MAX=0", "WIFI_SSID1=MyNet"])) ++
        fixedDefines (parseEnvFile (some ["WIFI_SLOTS_MAX=0", "WIFI_SSID1=MyNet"])))
      "WIFI_SSID" = some (quoteWrap "MyNet") := by
  have h := C10_zero_slots (parseEnvFile (some ["WIFI_SLOTS_MAX=0", "WIFI_SSID1=MyNet"])) 0
    (by decide) (by decide)
  refine ⟨h.1, ?_⟩
  rw [h.2.2 (by decide)]
  rfl

end LoadEnv
